import Mathlib

/-!
Shallow embedding of the RocketEngine ECS core (`src/world.rs`,
`src/systems/query.rs`, `src/systems/scheduler.rs`, `src/systems/movement.rs`,
`src/scene.rs`) and proofs about it.

Modelling conventions:
* Rust `HashMap<K, V>` is modelled as an association list (`Table`), with
  `lookupT` / `putT` / `eraseT` / `setRowT` mirroring `get`, `insert`,
  `remove` and the `get_mut`-then-assign pattern.  A real `HashMap` never
  holds two rows with the same key, so theorems that need it take the
  representation invariant "keys are nodup" as a hypothesis.
* `f32` coordinates are modelled as `ℚ`.  Every coordinate operation the
  embedded code performs (copy, compare, negate, absolute value) is exact on
  IEEE floats, so `ℚ` is a faithful model on non-NaN values.
* Entity ids are `u32` in the source (`pub type Entity = u32;` with
  `next_entity_id += 1`), modelled as `Nat` reduced mod `2^32`.
* The Rapier solver is an opaque external authority: `PhysicsPipeline::step`
  is a parameter `stepF : Nat → Body → Body` applied to every live body
  (the solver updates body states; it neither creates nor destroys bodies).
  `check_collisions` only prints and is therefore the identity on state.
  Rigid-body configuration that only the opaque solver reads (damping, CCD
  flags, restitution, friction, density, sleep) is not observable by any
  modelled operation and is kept only where a claim could see it.
-/

namespace RocketEngine

/-- Association table standing for a Rust `HashMap` keyed by `κ`. -/
abbrev Table (κ α : Type) : Type := List (κ × α)

/-- `HashMap::get`: first row with the given key. -/
def lookupT {κ α : Type} [DecidableEq κ] (k : κ) : Table κ α → Option α
  | [] => none
  | (k', v) :: rest => if k' = k then some v else lookupT k rest

/-- `HashMap::remove`: drop every row with the given key. -/
def eraseT {κ α : Type} [DecidableEq κ] (k : κ) (t : Table κ α) : Table κ α :=
  t.filter (fun p => p.1 ≠ k)

/-- `HashMap::insert`: the table now maps `k` to `v`; other keys unchanged. -/
def putT {κ α : Type} [DecidableEq κ] (k : κ) (v : α) (t : Table κ α) : Table κ α :=
  (k, v) :: eraseT k t

/-- The `get_mut`-then-assign pattern: overwrite the row for `k` if it is
present, do nothing otherwise. -/
def setRowT {κ α : Type} [DecidableEq κ] (k : κ) (v : α) (t : Table κ α) : Table κ α :=
  t.map (fun p => if p.1 = k then (k, v) else p)

/-- Keys of a table in iteration order. -/
def keysOf {κ α : Type} (t : Table κ α) : List κ :=
  t.map Prod.fst

/-! ## Component types (`src/components/`) -/

/-- `Position { x: f32, y: f32 }` from `src/components/position.rs`. -/
structure Position where
  x : ℚ
  y : ℚ
deriving DecidableEq, Repr

/-- `Velocity { x: f32, y: f32 }` from `src/components/velocity.rs`. -/
structure Velocity where
  x : ℚ
  y : ℚ
deriving DecidableEq, Repr

/-- `Sprite { color: u32, size: usize }` from `src/components/sprite.rs`. -/
structure Sprite where
  color : Nat
  size : Nat
deriving DecidableEq, Repr

/-- `TextureSprite { atlas_name: String, scale: f32 }` from
`src/components/texture_sprite.rs`. -/
structure TextureSprite where
  atlas_name : String
  scale : ℚ
deriving DecidableEq, Repr

/-- `RigidBodyType` as used by `add_physics_body` (Rapier enumeration). -/
inductive RigidBodyType where
  | Dynamic
  | Fixed
  | KinematicPositionBased
  | KinematicVelocityBased
deriving DecidableEq, Repr

/-! ## The physics authority (observable fragment of Rapier state) -/

/-- Observable state of one rigid body: `translation()` and `linvel()`,
plus the body type it was built with.  Damping, CCD and sleep settings are
read only by the opaque solver and are omitted. -/
structure Body where
  tx : ℚ
  ty : ℚ
  vx : ℚ
  vy : ℚ
  body_type : RigidBodyType
deriving DecidableEq, Repr

/-- `RigidBodySet`: an arena of bodies.  Freshly inserted bodies receive a
handle distinct from every handle issued before, mirroring Rapier's
generational arena. -/
structure BodySet where
  nextHandle : Nat
  bodies : Table Nat Body
deriving DecidableEq, Repr

/-- Observable state of one collider built by `add_physics_body`: its parent
body and the cuboid half-extents.  Restitution/friction/density only
parametrise the opaque solver. -/
structure Collider where
  parent : Nat
  half_x : ℚ
  half_y : ℚ
deriving DecidableEq, Repr

/-- `ColliderSet` arena. -/
structure ColliderSet where
  nextHandle : Nat
  colliders : Table Nat Collider
deriving DecidableEq, Repr

/-! ## World (`src/world.rs`) -/

/-- `u32` range of the entity allocator (`pub type Entity = u32`). -/
def u32size : Nat := 4294967296

/-- The `World` struct: component tables, entity allocator, physics
authority and the bidirectional entity/body-handle maps. -/
structure World where
  next_entity_id : Nat
  positions : Table Nat Position
  velocities : Table Nat Velocity
  sprites : Table Nat Sprite
  texture_sprites : Table Nat TextureSprite
  physics_world : BodySet
  collider_set : ColliderSet
  entity_to_body : Table Nat Nat
  body_to_entity : Table Nat Nat
deriving DecidableEq, Repr

namespace World

/-- `World::new()`. -/
def new : World :=
  { next_entity_id := 0
    positions := []
    velocities := []
    sprites := []
    texture_sprites := []
    physics_world := ⟨0, []⟩
    collider_set := ⟨0, []⟩
    entity_to_body := []
    body_to_entity := [] }

/-- `World::create_entity`: returns `next_entity_id` and increments it
(`u32` arithmetic, hence mod `2^32`). -/
def create_entity (w : World) : Nat × World :=
  (w.next_entity_id, { w with next_entity_id := (w.next_entity_id + 1) % u32size })

/-- `World::add_position`. -/
def add_position (w : World) (entity : Nat) (position : Position) : World :=
  { w with positions := putT entity position w.positions }

/-- `World::add_velocity`. -/
def add_velocity (w : World) (entity : Nat) (velocity : Velocity) : World :=
  { w with velocities := putT entity velocity w.velocities }

/-- `World::add_sprite`. -/
def add_sprite (w : World) (entity : Nat) (sprite : Sprite) : World :=
  { w with sprites := putT entity sprite w.sprites }

/-- `World::add_texture_sprite`. -/
def add_texture_sprite (w : World) (entity : Nat) (texture_sprite : TextureSprite) : World :=
  { w with texture_sprites := putT entity texture_sprite w.texture_sprites }

/-- `World::add_physics_body`: seeds the body's linear velocity from the
entity's `Velocity` row if present, inserts body and collider into the
authority, and records the bidirectional entity/handle mapping. -/
def add_physics_body (w : World) (entity : Nat) (position : Position)
    (size : ℚ) (body_type : RigidBodyType) : World :=
  let initial_velocity : ℚ × ℚ :=
    match lookupT entity w.velocities with
    | some v => (v.x, v.y)
    | none => (0, 0)
  let body : Body :=
    { tx := position.x, ty := position.y
      vx := initial_velocity.1, vy := initial_velocity.2
      body_type := body_type }
  let body_handle := w.physics_world.nextHandle
  let collider : Collider := { parent := body_handle, half_x := size / 2, half_y := size / 2 }
  { w with
    physics_world :=
      { nextHandle := body_handle + 1
        bodies := putT body_handle body w.physics_world.bodies }
    collider_set :=
      { nextHandle := w.collider_set.nextHandle + 1
        colliders := putT w.collider_set.nextHandle collider w.collider_set.colliders }
    entity_to_body := putT entity body_handle w.entity_to_body
    body_to_entity := putT body_handle entity w.body_to_entity }

/-- `World::get_position`. -/
def get_position (w : World) (entity : Nat) : Option Position :=
  lookupT entity w.positions

/-- `World::get_velocity`. -/
def get_velocity (w : World) (entity : Nat) : Option Velocity :=
  lookupT entity w.velocities

/-- `World::get_sprite`. -/
def get_sprite (w : World) (entity : Nat) : Option Sprite :=
  lookupT entity w.sprites

/-- `World::get_texture_sprite`. -/
def get_texture_sprite (w : World) (entity : Nat) : Option TextureSprite :=
  lookupT entity w.texture_sprites

/-- `World::set_physics_velocity`: writes the body's linear velocity if the
entity has a body, otherwise does nothing. -/
def set_physics_velocity (w : World) (entity : Nat) (vx vy : ℚ) : World :=
  match lookupT entity w.entity_to_body with
  | none => w
  | some body_handle =>
    match lookupT body_handle w.physics_world.bodies with
    | none => w
    | some body =>
      { w with
        physics_world :=
          { w.physics_world with
            bodies := setRowT body_handle { body with vx := vx, vy := vy }
              w.physics_world.bodies } }

/-- The loop body of `sync_positions_from_physics` acting on one component
table: for each `(entity, handle)` pair, overwrite the entity's row (if it
exists) with a projection of the body's state. -/
def syncTable {α : Type} (f : Body → α) (fwd : Table Nat Nat)
    (bs : Table Nat Body) (t : Table Nat α) : Table Nat α :=
  fwd.foldl
    (fun t p =>
      match lookupT p.2 bs with
      | none => t
      | some b => setRowT p.1 (f b) t)
    t

/-- `World::sync_positions_from_physics`: copy translation and linear
velocity of every mapped body into the Position/Velocity caches, touching
only rows that already exist. -/
def sync_positions_from_physics (w : World) : World :=
  { w with
    positions :=
      syncTable (fun b => ⟨b.tx, b.ty⟩) w.entity_to_body w.physics_world.bodies w.positions
    velocities :=
      syncTable (fun b => ⟨b.vx, b.vy⟩) w.entity_to_body w.physics_world.bodies w.velocities }

/-- Screen constants of `apply_boundary_constraints`. -/
def SCREEN_WIDTH : ℚ := 800

/-- Screen height constant. -/
def SCREEN_HEIGHT : ℚ := 600

/-- Play-field margin constant. -/
def MARGIN : ℚ := 16

/-- The per-body computation of `apply_boundary_constraints`: clamp each
translation component to the margins and force the matching velocity
component inward (`abs` at the low edge, `-abs` at the high edge), together
with the `changed` flag. -/
def clampBody (b : Body) : Body × Bool :=
  let xr : ℚ × ℚ × Bool :=
    if b.tx < MARGIN then (MARGIN, |b.vx|, true)
    else if b.tx > SCREEN_WIDTH - MARGIN then (SCREEN_WIDTH - MARGIN, -|b.vx|, true)
    else (b.tx, b.vx, false)
  let yr : ℚ × ℚ × Bool :=
    if b.ty < MARGIN then (MARGIN, |b.vy|, true)
    else if b.ty > SCREEN_HEIGHT - MARGIN then (SCREEN_HEIGHT - MARGIN, -|b.vy|, true)
    else (b.ty, b.vy, false)
  ({ b with tx := xr.1, vx := xr.2.1, ty := yr.1, vy := yr.2.1 },
    xr.2.2 || yr.2.2)

/-- One iteration of the `apply_boundary_constraints` loop: fetch the body
for a handle, clamp it, write it back only when the flag says it changed. -/
def boundaryStep (bs : Table Nat Body) (h : Nat) : Table Nat Body :=
  match lookupT h bs with
  | none => bs
  | some b =>
    let r := clampBody b
    if r.2 then setRowT h r.1 bs else bs

/-- The `for (&_entity, &body_handle) in &self.entity_to_body` loop of
`apply_boundary_constraints`, threading the body set through each step. -/
def boundaryFold (fwd : Table Nat Nat) (bs : Table Nat Body) : Table Nat Body :=
  fwd.foldl (fun bs p => boundaryStep bs p.2) bs

/-- `World::apply_boundary_constraints`: clamp every mapped body. -/
def apply_boundary_constraints (w : World) : World :=
  { w with
    physics_world :=
      { w.physics_world with
        bodies := boundaryFold w.entity_to_body w.physics_world.bodies } }

/-- The solver pass of `step_physics`: `PhysicsPipeline::step` is the opaque
external authority, modelled as an arbitrary update `stepF` of every live
body's state. -/
def steppedBodies (stepF : Nat → Body → Body) (w : World) : Table Nat Body :=
  w.physics_world.bodies.map (fun p => (p.1, stepF p.1 p.2))

/-- `World::step_physics`: run the solver, log collisions (`check_collisions`
prints only, so it is the identity on state), sync the caches from the
authority, then apply boundary constraints to the authority. -/
def step_physics (w : World) (stepF : Nat → Body → Body) : World :=
  let w1 := { w with physics_world := { w.physics_world with bodies := steppedBodies stepF w } }
  let w2 := w1.sync_positions_from_physics
  w2.apply_boundary_constraints

/-- `World::entity_count`. -/
def entity_count (w : World) : Nat :=
  w.next_entity_id

/-- `World::remove_entity`: remove the physics body (and its colliders) if
one exists, drop both handle-map entries, then remove every component row. -/
def remove_entity (w : World) (entity : Nat) : World :=
  let w :=
    match lookupT entity w.entity_to_body with
    | none => w
    | some body_handle =>
      { w with
        physics_world :=
          { w.physics_world with bodies := eraseT body_handle w.physics_world.bodies }
        collider_set :=
          { w.collider_set with
            colliders := w.collider_set.colliders.filter (fun p => p.2.parent ≠ body_handle) }
        entity_to_body := eraseT entity w.entity_to_body
        body_to_entity := eraseT body_handle w.body_to_entity }
  { w with
    positions := eraseT entity w.positions
    velocities := eraseT entity w.velocities
    sprites := eraseT entity w.sprites
    texture_sprites := eraseT entity w.texture_sprites }

end World

/-! ## Query layer (`src/systems/query.rs`) -/

/-- `MovementQuery` / `PositionVelocityQuery::next`: iterate the entity keys
of the `positions` table and, for each, probe both `positions` and
`velocities`; yield a triple only when both components are present. -/
def MovementQuery.query (w : World) : List (Nat × Position × Velocity) :=
  (keysOf w.positions).filterMap
    (fun entity =>
      match lookupT entity w.positions, lookupT entity w.velocities with
      | some position, some velocity => some (entity, position, velocity)
      | _, _ => none)

/-! ## Scheduler (`src/systems/scheduler.rs`) -/

/-- A registered stage: `System::update(&mut world, dt)`.  `QuerySystemAdapter`
forwards `update` to `update_with_queries` unchanged, so query-based stages
are the same function shape. -/
abbrev SystemFn : Type := World → ℚ → World

/-- The `Scheduler` struct: an ordered list of stages. -/
structure Scheduler where
  systems : List SystemFn

namespace Scheduler

/-- `Scheduler::new()`. -/
def new : Scheduler := ⟨[]⟩

/-- `Scheduler::add_system` (and `add_query_system`, which only wraps the
stage in the adapter): append to the ordered list. -/
def add_system (s : Scheduler) (f : SystemFn) : Scheduler :=
  ⟨s.systems ++ [f]⟩

/-- `Scheduler::update`: run every stage once, in registration order, each
receiving the world produced by its predecessors and the same `dt`. -/
def update (s : Scheduler) (w : World) (dt : ℚ) : World :=
  s.systems.foldl (fun w f => f w dt) w

/-- `Scheduler::system_count`. -/
def system_count (s : Scheduler) : Nat :=
  s.systems.length

end Scheduler

/-- `MovementSystem::update_with_queries` (`src/systems/movement.rs`):
collect `(entity, x + vx*dt, y + vy*dt)` over the Position+Velocity query,
then write the collected positions back through `get_mut`. -/
def movementSystem : SystemFn := fun w dt =>
  let updates := (MovementQuery.query w).map
    (fun r => (r.1, r.2.1.x + r.2.2.x * dt, r.2.1.y + r.2.2.y * dt))
  updates.foldl
    (fun w u => { w with positions := setRowT u.1 ⟨u.2.1, u.2.2⟩ w.positions })
    w

/-! ## Scenes (`src/scene.rs`) -/

/-- `PhysicsBodyData`. -/
structure PhysicsBodyData where
  size : ℚ
  body_type : RigidBodyType
deriving DecidableEq, Repr

/-- `EntityData`: one optional-component bundle of a scene. -/
structure EntityData where
  name : Option String
  position : Option Position
  velocity : Option Velocity
  texture_sprite : Option TextureSprite
  physics_body : Option PhysicsBodyData
deriving DecidableEq, Repr

/-- `Scene`. -/
structure Scene where
  name : String
  description : Option String
  entities : List EntityData
deriving DecidableEq, Repr

namespace SceneLoader

/-- The body of the `spawn_scene` loop for one bundle: create a fresh
entity, then add exactly the components whose fields are present (a physics
body is placed at the bundle's position, defaulting to `(0, 0)`). -/
def spawnOne (w : World) (d : EntityData) : Nat × World :=
  let r := w.create_entity
  let w1 :=
    match d.position with
    | some position => r.2.add_position r.1 position
    | none => r.2
  let w2 :=
    match d.velocity with
    | some velocity => w1.add_velocity r.1 velocity
    | none => w1
  let w3 :=
    match d.texture_sprite with
    | some texture_sprite => w2.add_texture_sprite r.1 texture_sprite
    | none => w2
  let w4 :=
    match d.physics_body with
    | some physics_data =>
      w3.add_physics_body r.1 (d.position.getD ⟨0, 0⟩) physics_data.size physics_data.body_type
    | none => w3
  (r.1, w4)

/-- The name under which a bundle at (zero-based) position `idx` is
recorded in the returned map: its own name, or `"entity_" ++ idx`. -/
def spawnKey (idx : Nat) (d : EntityData) : String :=
  d.name.getD ("entity_" ++ toString idx)

/-- The indexed `for (index, entity_data)` loop of `spawn_scene`, also
threading the name→entity map. -/
def spawnLoop (w : World) (m : Table String Nat) (idx : Nat) :
    List EntityData → Table String Nat × World
  | [] => (m, w)
  | d :: rest =>
    let r := spawnOne w d
    spawnLoop r.2 (putT (spawnKey idx d) r.1 m) (idx + 1) rest

/-- The keys of the bundles of a scene suffix starting at index `idx`. -/
def spawnKeysFrom (idx : Nat) : List EntityData → List String
  | [] => []
  | d :: rest => spawnKey idx d :: spawnKeysFrom (idx + 1) rest

/-- `SceneLoader::spawn_scene`: spawn every bundle in order and return the
name→entity map together with the updated world. -/
def spawn_scene (scene : Scene) (w : World) : Table String Nat × World :=
  spawnLoop w [] 0 scene.entities

end SceneLoader

/-! ## Operation sequences (reachable `World` states) -/

/-- One public `World` mutation, for quantifying over call sequences.
`stepPhysicsOp` carries the opaque solver update. -/
inductive Op where
  | createE : Op
  | addPosition (entity : Nat) (position : Position) : Op
  | addVelocity (entity : Nat) (velocity : Velocity) : Op
  | addSprite (entity : Nat) (sprite : Sprite) : Op
  | addTextureSprite (entity : Nat) (texture_sprite : TextureSprite) : Op
  | addPhysicsBody (entity : Nat) (position : Position) (size : ℚ)
      (body_type : RigidBodyType) : Op
  | setPhysicsVelocity (entity : Nat) (vx vy : ℚ) : Op
  | stepPhysicsOp (stepF : Nat → Body → Body) : Op
  | removeEntity (entity : Nat) : Op

/-- Apply one operation (the id returned by `create_entity` is dropped
here; `traceIds` recovers the returned ids). -/
def applyOp (w : World) : Op → World
  | .createE => (w.create_entity).2
  | .addPosition e p => w.add_position e p
  | .addVelocity e v => w.add_velocity e v
  | .addSprite e s => w.add_sprite e s
  | .addTextureSprite e t => w.add_texture_sprite e t
  | .addPhysicsBody e p sz bt => w.add_physics_body e p sz bt
  | .setPhysicsVelocity e vx vy => w.set_physics_velocity e vx vy
  | .stepPhysicsOp stepF => w.step_physics stepF
  | .removeEntity e => w.remove_entity e

/-- Run a call sequence from a given world. -/
def runOpsFrom (w : World) (ops : List Op) : World :=
  ops.foldl applyOp w

/-- Run a call sequence from `World::new()`. -/
def runOps (ops : List Op) : World :=
  runOpsFrom World.new ops

/-- The identifiers returned by the `create_entity` calls of a sequence, in
call order. -/
def traceIds (w : World) : List Op → List Nat
  | [] => []
  | op :: rest =>
    match op with
    | .createE => w.next_entity_id :: traceIds (applyOp w op) rest
    | _ => traceIds (applyOp w op) rest

/-- Number of `create_entity` calls in a sequence. -/
def countCreates (ops : List Op) : Nat :=
  ops.countP (fun op => match op with | .createE => true | _ => false)

/-- Executable check of the spec's referential-integrity invariant: every
forward row round-trips through the reverse map and vice versa. -/
def mapsConsistentB (w : World) : Bool :=
  w.entity_to_body.all (fun p => lookupT p.2 w.body_to_entity == some p.1) &&
  w.body_to_entity.all (fun p => lookupT p.2 w.entity_to_body == some p.1)

/-- Guard (per operation) of the amended C3/C4 statements:
`add_physics_body` is not re-invoked on an entity that already has a body. -/
def goodOp (w : World) : Op → Bool
  | .addPhysicsBody e _ _ _ => (lookupT e w.entity_to_body).isNone
  | _ => true

/-- Guard over a whole call sequence. -/
def goodRun (w : World) : List Op → Bool
  | [] => true
  | op :: rest => goodOp w op && goodRun (applyOp w op) rest

/-- The spec's example stage A: a plain mutator stage writing
`Velocity(0) = (5, 0)` into the World. -/
def setVelocitySystem : SystemFn := fun w _ => w.add_velocity 0 ⟨5, 0⟩

/-! ## Concrete demonstration worlds -/

/-- World for the scheduler order-sensitivity example: entity `0` at
`(0, 0)` with velocity `(0, 0)`. -/
def worldSched : World :=
  (World.new.add_position 0 ⟨0, 0⟩).add_velocity 0 ⟨0, 0⟩

/-- The spec's inner-join example: entity `1` has Position and Velocity,
entity `2` only Position, entity `3` only Velocity. -/
def worldJoin : World :=
  let w := World.new
  let w := w.add_position 1 ⟨1, 1⟩
  let w := w.add_velocity 1 ⟨2, 2⟩
  let w := w.add_position 2 ⟨3, 3⟩
  w.add_velocity 3 ⟨4, 4⟩

/-- The spec's round-trip example scene plus a second, unnamed,
position-only bundle. -/
def sceneWitness : Scene :=
  ⟨"demo", none,
    [⟨some "p", some ⟨100, 100⟩, some ⟨0, 0⟩, some ⟨"player", 2⟩,
        some ⟨32, .Dynamic⟩⟩,
      ⟨none, some ⟨3, 4⟩, none, none, none⟩]⟩

/-- A scene of two empty, unnamed bundles. -/
def sceneTwo : Scene :=
  ⟨"s", none, [⟨none, none, none, none, none⟩, ⟨none, none, none, none, none⟩]⟩

/-- The world reached from `World::new()` by `2^32 - 1` calls to
`create_entity` — the `u32` allocator is one call away from wrapping. -/
def worldNearWrap : World :=
  runOps (List.replicate (u32size - 1) Op.createE)

/-- World built by calling `add_physics_body` twice on entity `0`: the
second call overwrites the forward entry but leaves the first reverse entry
`(0 ↦ 0)` stale. -/
def worldDoubleBody : World :=
  let w := (World.new.create_entity).2
  let w := w.add_physics_body 0 ⟨1, 2⟩ 32 .Dynamic
  w.add_physics_body 0 ⟨1, 2⟩ 32 .Dynamic

/-- In-bounds demonstration world: entity `0` at `(300, 300)` with velocity
`(5, 0)` and a physics body. -/
def worldInBounds : World :=
  let w := (World.new.create_entity).2
  let w := w.add_position 0 ⟨300, 300⟩
  let w := w.add_velocity 0 ⟨5, 0⟩
  w.add_physics_body 0 ⟨300, 300⟩ 32 .Dynamic

/-- World whose only body ends the solver step outside the low margins:
entity `0` with rows and a body at `(5, 5)` with velocity `(3, 4)`. -/
def worldOutLow : World :=
  let w := (World.new.create_entity).2
  let w := w.add_position 0 ⟨5, 5⟩
  let w := w.add_velocity 0 ⟨3, 4⟩
  w.add_physics_body 0 ⟨5, 5⟩ 32 .Dynamic

/-- World whose only body ends the solver step beyond the low margins while
already moving inward: body at `(10, 10)` with velocity `(5, 4)`. -/
def worldLowEdge : World :=
  let w := (World.new.create_entity).2
  let w := w.add_position 0 ⟨10, 10⟩
  let w := w.add_velocity 0 ⟨5, 4⟩
  w.add_physics_body 0 ⟨10, 10⟩ 32 .Dynamic

/-! ## Table lemmas -/

section TableLemmas

variable {κ α : Type} [DecidableEq κ]

theorem lookupT_nil (k : κ) : lookupT (α := α) k [] = none := rfl

theorem lookupT_cons (k k' : κ) (v : α) (t : Table κ α) :
    lookupT k ((k', v) :: t) = if k' = k then some v else lookupT k t := rfl

theorem lookupT_eraseT_self (k : κ) (t : Table κ α) :
    lookupT k (eraseT k t) = none := by
  induction t with
  | nil => rfl
  | cons p rest ih =>
    by_cases h : p.1 = k
    · simpa [eraseT, h] using ih
    · simpa [eraseT, lookupT, h] using ih

theorem lookupT_eraseT_ne (k k' : κ) (t : Table κ α) (h : k ≠ k') :
    lookupT k' (eraseT k t) = lookupT k' t := by
  induction t with
  | nil => rfl
  | cons p rest ih =>
    obtain ⟨a, b⟩ := p
    by_cases hp : a = k
    · have ha : a ≠ k' := fun hh => h (hp ▸ hh)
      rw [show eraseT k ((a, b) :: rest) = eraseT k rest by simp [eraseT, hp]]
      rw [ih, lookupT_cons, if_neg ha]
    · rw [show eraseT k ((a, b) :: rest) = (a, b) :: eraseT k rest by simp [eraseT, hp]]
      rw [lookupT_cons, lookupT_cons, ih]

theorem lookupT_putT_self (k : κ) (v : α) (t : Table κ α) :
    lookupT k (putT k v t) = some v := by
  simp [putT, lookupT]

theorem lookupT_putT_ne (k k' : κ) (v : α) (t : Table κ α) (h : k ≠ k') :
    lookupT k' (putT k v t) = lookupT k' t := by
  simp [putT, lookupT, fun hh => h (hh : k = k')]
  exact lookupT_eraseT_ne k k' t h

theorem setRowT_cons (k : κ) (v : α) (a : κ) (b : α) (t : Table κ α) :
    setRowT k v ((a, b) :: t) =
      (if a = k then (k, v) else (a, b)) :: setRowT k v t := rfl

theorem lookupT_setRowT_self (k : κ) (v : α) (t : Table κ α) :
    lookupT k (setRowT k v t) = (lookupT k t).map (fun _ => v) := by
  induction t with
  | nil => rfl
  | cons p rest ih =>
    obtain ⟨a, b⟩ := p
    rw [setRowT_cons]
    by_cases h : a = k
    · rw [if_pos h, lookupT_cons, if_pos rfl, lookupT_cons, if_pos h]
      rfl
    · rw [if_neg h, lookupT_cons, if_neg h, lookupT_cons, if_neg h, ih]

theorem lookupT_setRowT_ne (k k' : κ) (v : α) (t : Table κ α) (h : k ≠ k') :
    lookupT k' (setRowT k v t) = lookupT k' t := by
  induction t with
  | nil => rfl
  | cons p rest ih =>
    obtain ⟨a, b⟩ := p
    rw [setRowT_cons]
    by_cases hp : a = k
    · rw [if_pos hp, lookupT_cons, if_neg h, lookupT_cons,
        if_neg (fun hh => h (hp ▸ hh) : ¬a = k'), ih]
    · rw [if_neg hp, lookupT_cons, lookupT_cons, ih]

theorem isSome_lookupT_setRowT (k k' : κ) (v : α) (t : Table κ α) :
    (lookupT k' (setRowT k v t)).isSome = (lookupT k' t).isSome := by
  by_cases h : k = k'
  · subst h
    rw [lookupT_setRowT_self]
    cases lookupT k t <;> rfl
  · rw [lookupT_setRowT_ne k k' v t h]

theorem lookupT_isSome_iff_mem_keysOf (k : κ) (t : Table κ α) :
    (lookupT k t).isSome ↔ k ∈ keysOf t := by
  induction t with
  | nil => simp [lookupT, keysOf]
  | cons p rest ih =>
    by_cases h : p.1 = k
    · simp [lookupT, keysOf, h]
    · simp [lookupT, keysOf, h, ih]
      intro hk
      exact absurd hk.symm h

theorem mem_keysOf_of_lookupT (k : κ) (v : α) (t : Table κ α)
    (h : lookupT k t = some v) : k ∈ keysOf t := by
  rw [← lookupT_isSome_iff_mem_keysOf, h]
  rfl

theorem lookupT_mem_snd (k : κ) (v : α) (t : Table κ α)
    (h : lookupT k t = some v) : v ∈ t.map Prod.snd := by
  induction t with
  | nil => simp [lookupT] at h
  | cons p rest ih =>
    by_cases hp : p.1 = k
    · simp [lookupT, hp] at h
      simp [← h]
    · simp [lookupT, hp] at h
      simp [ih h]

end TableLemmas

/-! ## Synchronization lemmas -/

theorem syncTable_nil {α : Type} (f : Body → α) (bs : Table Nat Body) (t : Table Nat α) :
    World.syncTable f [] bs t = t := rfl

theorem syncTable_cons {α : Type} (f : Body → α) (e h : Nat) (fwd : Table Nat Nat)
    (bs : Table Nat Body) (t : Table Nat α) :
    World.syncTable f ((e, h) :: fwd) bs t =
      World.syncTable f fwd bs
        (match lookupT h bs with
         | none => t
         | some b => setRowT e (f b) t) := rfl

theorem isSome_lookupT_syncTable {α : Type} (f : Body → α) (fwd : Table Nat Nat)
    (bs : Table Nat Body) (t : Table Nat α) (e : Nat) :
    (lookupT e (World.syncTable f fwd bs t)).isSome = (lookupT e t).isSome := by
  induction fwd generalizing t with
  | nil => rfl
  | cons p rest ih =>
    obtain ⟨e₀, h₀⟩ := p
    rw [syncTable_cons]
    cases hb : lookupT h₀ bs with
    | none => exact ih t
    | some b =>
      rw [ih (setRowT e₀ (f b) t)]
      exact isSome_lookupT_setRowT e₀ e (f b) t

theorem lookupT_syncTable_not_mem {α : Type} (f : Body → α) (fwd : Table Nat Nat)
    (bs : Table Nat Body) (t : Table Nat α) (e : Nat) (he : e ∉ keysOf fwd) :
    lookupT e (World.syncTable f fwd bs t) = lookupT e t := by
  induction fwd generalizing t with
  | nil => rfl
  | cons p rest ih =>
    obtain ⟨e₀, h₀⟩ := p
    have he₀ : e₀ ≠ e := fun hh => he (by simp [keysOf, hh])
    have herest : e ∉ keysOf rest := fun hh => he (by simp [keysOf] at hh ⊢; exact Or.inr hh)
    rw [syncTable_cons]
    cases hb : lookupT h₀ bs with
    | none => exact ih t herest
    | some b =>
      rw [ih _ herest]
      exact lookupT_setRowT_ne e₀ e (f b) t he₀

theorem lookupT_syncTable_self {α : Type} (f : Body → α) (fwd : Table Nat Nat)
    (bs : Table Nat Body) (t : Table Nat α) (e h : Nat) (b : Body)
    (hnd : (keysOf fwd).Nodup) (hfwd : lookupT e fwd = some h)
    (hb : lookupT h bs = some b) :
    lookupT e (World.syncTable f fwd bs t) = (lookupT e t).map (fun _ => f b) := by
  induction fwd generalizing t with
  | nil => simp [lookupT] at hfwd
  | cons p rest ih =>
    obtain ⟨e₀, h₀⟩ := p
    rw [keysOf] at hnd
    simp only [List.map_cons, List.nodup_cons] at hnd
    by_cases he : e₀ = e
    · subst he
      rw [lookupT_cons, if_pos rfl] at hfwd
      obtain rfl : h₀ = h := Option.some_injective _ hfwd
      rw [syncTable_cons, hb]
      rw [lookupT_syncTable_not_mem f rest bs _ e₀ (by simpa [keysOf] using hnd.1)]
      exact lookupT_setRowT_self e₀ (f b) t
    · rw [lookupT_cons, if_neg he] at hfwd
      rw [syncTable_cons]
      cases hb₀ : lookupT h₀ bs with
      | none => exact ih t hnd.2 hfwd
      | some b₀ =>
        rw [ih (setRowT e₀ (f b₀) t) hnd.2 hfwd,
          lookupT_setRowT_ne e₀ e (f b₀) t he]

/-! ## Boundary-constraint lemmas -/

theorem clampBody_unchanged (b : Body) (hfalse : (World.clampBody b).2 = false) :
    (World.clampBody b).1 = b := by
  simp only [World.clampBody] at hfalse ⊢
  split_ifs at hfalse ⊢ <;> simp_all

theorem clampBody_fst_idem (b : Body) :
    (World.clampBody (World.clampBody b).1).1 = (World.clampBody b).1 := by
  have h16 : ¬ (World.MARGIN < World.MARGIN) := lt_irrefl _
  have hxw : ¬ (World.MARGIN > World.SCREEN_WIDTH - World.MARGIN) := by
    norm_num [World.MARGIN, World.SCREEN_WIDTH]
  have hxw' : ¬ (World.SCREEN_WIDTH - World.MARGIN < World.MARGIN) := by
    norm_num [World.MARGIN, World.SCREEN_WIDTH]
  have hxw'' : ¬ (World.SCREEN_WIDTH - World.MARGIN > World.SCREEN_WIDTH - World.MARGIN) :=
    lt_irrefl _
  have hyh : ¬ (World.MARGIN > World.SCREEN_HEIGHT - World.MARGIN) := by
    norm_num [World.MARGIN, World.SCREEN_HEIGHT]
  have hyh' : ¬ (World.SCREEN_HEIGHT - World.MARGIN < World.MARGIN) := by
    norm_num [World.MARGIN, World.SCREEN_HEIGHT]
  have hyh'' : ¬ (World.SCREEN_HEIGHT - World.MARGIN > World.SCREEN_HEIGHT - World.MARGIN) :=
    lt_irrefl _
  simp only [World.clampBody]
  split_ifs <;> simp_all

theorem boundaryFold_nil (bs : Table Nat Body) : World.boundaryFold [] bs = bs := rfl

theorem boundaryFold_cons (e h : Nat) (fwd : Table Nat Nat) (bs : Table Nat Body) :
    World.boundaryFold ((e, h) :: fwd) bs =
      World.boundaryFold fwd (World.boundaryStep bs h) := rfl

theorem lookupT_boundaryStep_self (bs : Table Nat Body) (h : Nat) :
    lookupT h (World.boundaryStep bs h) =
      (lookupT h bs).map (fun b => (World.clampBody b).1) := by
  unfold World.boundaryStep
  cases hb : lookupT h bs with
  | none => simp [hb]
  | some b =>
    simp only [hb]
    by_cases hc : (World.clampBody b).2
    · rw [if_pos hc, lookupT_setRowT_self, hb]
      rfl
    · rw [if_neg hc, hb]
      simp [clampBody_unchanged b (by simpa using hc)]

theorem lookupT_boundaryStep_ne (bs : Table Nat Body) (h h' : Nat) (hne : h ≠ h') :
    lookupT h' (World.boundaryStep bs h) = lookupT h' bs := by
  unfold World.boundaryStep
  cases hb : lookupT h bs with
  | none => rfl
  | some b =>
    by_cases hc : (World.clampBody b).2
    · simp only [hc, if_pos]
      exact lookupT_setRowT_ne h h' _ bs hne
    · simp [hc]

theorem lookupT_boundaryFold (fwd : Table Nat Nat) (bs : Table Nat Body) (h : Nat) :
    lookupT h (World.boundaryFold fwd bs) =
      if h ∈ fwd.map Prod.snd then (lookupT h bs).map (fun b => (World.clampBody b).1)
      else lookupT h bs := by
  induction fwd generalizing bs with
  | nil => simp [boundaryFold_nil]
  | cons p rest ih =>
    obtain ⟨e₀, h₀⟩ := p
    rw [boundaryFold_cons, ih]
    by_cases hmem : h ∈ rest.map Prod.snd
    · rw [if_pos hmem, if_pos (by simp [hmem])]
      by_cases hh : h₀ = h
      · subst hh
        rw [lookupT_boundaryStep_self]
        cases lookupT h₀ bs with
        | none => rfl
        | some b => simp [clampBody_fst_idem]
      · rw [lookupT_boundaryStep_ne bs h₀ h hh]
    · rw [if_neg hmem]
      by_cases hh : h₀ = h
      · subst hh
        rw [if_pos (by simp), lookupT_boundaryStep_self]
      · rw [if_neg (by simp [hmem]; exact fun hhh => hh hhh.symm),
          lookupT_boundaryStep_ne bs h₀ h hh]

theorem clampBody_of_inbounds (b : Body)
    (hx1 : ¬ (b.tx < World.MARGIN)) (hx2 : ¬ (b.tx > World.SCREEN_WIDTH - World.MARGIN))
    (hy1 : ¬ (b.ty < World.MARGIN)) (hy2 : ¬ (b.ty > World.SCREEN_HEIGHT - World.MARGIN)) :
    World.clampBody b = (b, false) := by
  simp [World.clampBody, hx1, hx2, hy1, hy2]

/-! ## `step_physics` unfolding -/

theorem step_physics_eq (w : World) (stepF : Nat → Body → Body) :
    w.step_physics stepF =
      World.apply_boundary_constraints
        (World.sync_positions_from_physics
          { w with physics_world := { w.physics_world with bodies := World.steppedBodies stepF w } }) :=
  rfl

/-- C10: `sync_positions_from_physics` only overwrites rows that already
exist: the key sets of the positions and velocities tables are unchanged
(an entity with a body but no row still has no row), and the other
component tables are untouched. -/
theorem sync_positions_row_preservation (w : World) (e : Nat) :
    ((lookupT e w.sync_positions_from_physics.positions).isSome
        = (lookupT e w.positions).isSome) ∧
    ((lookupT e w.sync_positions_from_physics.velocities).isSome
        = (lookupT e w.velocities).isSome) ∧
    w.sync_positions_from_physics.sprites = w.sprites ∧
    w.sync_positions_from_physics.texture_sprites = w.texture_sprites :=
  ⟨isSome_lookupT_syncTable _ _ _ _ _, isSome_lookupT_syncTable _ _ _ _ _, rfl, rfl⟩

/-! ## C1: cache/authority agreement after `step_physics` -/

/-- C1 (amended): immediately after `step_physics()`, for an entity `e`
with body handle `h` whose Position/Velocity rows exist, the cached rows
equal the solver-reported state of `h` unconditionally — including for
clamped bodies, whose caches hold the pre-clamp sample — and that state is
also the final authority state provided the body ended the solver step
inside the margins (so that `apply_boundary_constraints` leaves it alone).
The unamended claim fails because the caches are synced *before* boundary
correction mutates the authority (see the counterexample). -/
theorem step_physics_cache_authority (w : World) (stepF : Nat → Body → Body)
    (e h : Nat) (b : Body)
    (hnd : (keysOf w.entity_to_body).Nodup)
    (hfwd : lookupT e w.entity_to_body = some h)
    (hb : lookupT h (World.steppedBodies stepF w) = some b)
    (hpos : (lookupT e w.positions).isSome)
    (hvel : (lookupT e w.velocities).isSome) :
    (w.step_physics stepF).get_position e = some ⟨b.tx, b.ty⟩ ∧
    (w.step_physics stepF).get_velocity e = some ⟨b.vx, b.vy⟩ ∧
    (¬ (b.tx < World.MARGIN) → ¬ (b.tx > World.SCREEN_WIDTH - World.MARGIN) →
      ¬ (b.ty < World.MARGIN) → ¬ (b.ty > World.SCREEN_HEIGHT - World.MARGIN) →
      lookupT h (w.step_physics stepF).physics_world.bodies = some b) := by
  obtain ⟨p₀, hp₀⟩ := Option.isSome_iff_exists.mp hpos
  obtain ⟨v₀, hv₀⟩ := Option.isSome_iff_exists.mp hvel
  rw [step_physics_eq]
  refine ⟨?_, ?_, ?_⟩
  · show lookupT e (World.syncTable (fun b => ⟨b.tx, b.ty⟩) w.entity_to_body
      (World.steppedBodies stepF w) w.positions) = some ⟨b.tx, b.ty⟩
    rw [lookupT_syncTable_self _ _ _ _ _ _ b hnd hfwd hb, hp₀]
    rfl
  · show lookupT e (World.syncTable (fun b => ⟨b.vx, b.vy⟩) w.entity_to_body
      (World.steppedBodies stepF w) w.velocities) = some ⟨b.vx, b.vy⟩
    rw [lookupT_syncTable_self _ _ _ _ _ _ b hnd hfwd hb, hv₀]
    rfl
  · intro hx1 hx2 hy1 hy2
    show lookupT h (World.boundaryFold w.entity_to_body (World.steppedBodies stepF w)) = some b
    rw [lookupT_boundaryFold]
    have hmem : h ∈ w.entity_to_body.map Prod.snd := lookupT_mem_snd e h _ hfwd
    rw [if_pos hmem, hb]
    simp [clampBody_of_inbounds b hx1 hx2 hy1 hy2]

/-- Witness for C1 (amended): on a concrete in-bounds world (identity
solver step) caches and final authority agree; on a concrete out-of-bounds
world the cache conjuncts still hold unconditionally, reporting the
pre-clamp solver sample `(5, 5)`. -/
theorem step_physics_cache_authority_witness :
    ((worldInBounds.step_physics (fun _ b => b)).get_position 0 = some ⟨300, 300⟩ ∧
      (worldInBounds.step_physics (fun _ b => b)).get_velocity 0 = some ⟨5, 0⟩ ∧
      lookupT 0 (worldInBounds.step_physics (fun _ b => b)).physics_world.bodies =
        some ⟨300, 300, 5, 0, .Dynamic⟩) ∧
    (worldOutLow.step_physics (fun _ b => b)).get_position 0 = some ⟨5, 5⟩ ∧
    (worldOutLow.step_physics (fun _ b => b)).get_velocity 0 = some ⟨3, 4⟩ := by
  have hin := step_physics_cache_authority worldInBounds (fun _ b => b) 0 0
    ⟨300, 300, 5, 0, .Dynamic⟩
    (by decide) (by decide) (by decide) (by decide) (by decide)
  have hout := step_physics_cache_authority worldOutLow (fun _ b => b) 0 0
    ⟨5, 5, 3, 4, .Dynamic⟩
    (by decide) (by decide) (by decide) (by decide) (by decide)
  exact ⟨⟨hin.1, hin.2.1,
      hin.2.2 (by decide)
        (by norm_num [World.SCREEN_WIDTH, World.MARGIN])
        (by decide)
        (by norm_num [World.SCREEN_HEIGHT, World.MARGIN])⟩,
    hout.1, hout.2.1⟩

/-- Counterexample to C1 as stated: after `step_physics()` the cached
Position of entity `0` is `(5, 5)` while the authority's translation for
its handle is `(MARGIN, MARGIN) = (16, 16)` — the caches are synced before
boundary correction rewrites the authority, so cache and authority
disagree. -/
theorem step_physics_cache_authority_cex :
    (worldOutLow.step_physics (fun _ b => b)).get_position 0 = some ⟨5, 5⟩ ∧
    lookupT 0 (worldOutLow.step_physics (fun _ b => b)).physics_world.bodies =
      some ⟨World.MARGIN, World.MARGIN, 3, 4, .Dynamic⟩ ∧
    (worldOutLow.step_physics (fun _ b => b)).get_position 0 ≠
      some ⟨World.MARGIN, World.MARGIN⟩ := by
  refine ⟨by decide, by decide, by decide⟩

/-! ## C2: boundary bounce -/

/-- C2 (amended): for every mapped body that ends the solver step beyond a
play-field margin, `step_physics()` leaves the authority with the offending
coordinate clamped exactly to the margin value, and the matching velocity
component set to its inward-pointing magnitude — `|v|` at the low edge,
`-|v|` at the high edge.  The sign therefore flips exactly when the
component pointed outward; the unamended "always sign-flipped relative to
the pre-step sign" fails for an inward-moving body (see counterexample). -/
theorem boundary_bounce (w : World) (stepF : Nat → Body → Body) (e h : Nat) (b : Body)
    (hfwd : lookupT e w.entity_to_body = some h)
    (hb : lookupT h (World.steppedBodies stepF w) = some b) :
    ∃ b', lookupT h (w.step_physics stepF).physics_world.bodies = some b' ∧
      (b.tx < World.MARGIN → b'.tx = World.MARGIN ∧ b'.vx = |b.vx|) ∧
      (b.tx > World.SCREEN_WIDTH - World.MARGIN →
        b'.tx = World.SCREEN_WIDTH - World.MARGIN ∧ b'.vx = -|b.vx|) ∧
      (b.ty < World.MARGIN → b'.ty = World.MARGIN ∧ b'.vy = |b.vy|) ∧
      (b.ty > World.SCREEN_HEIGHT - World.MARGIN →
        b'.ty = World.SCREEN_HEIGHT - World.MARGIN ∧ b'.vy = -|b.vy|) := by
  refine ⟨(World.clampBody b).1, ?_, ?_, ?_, ?_, ?_⟩
  · rw [step_physics_eq]
    show lookupT h (World.boundaryFold w.entity_to_body (World.steppedBodies stepF w)) = _
    rw [lookupT_boundaryFold, if_pos (lookupT_mem_snd e h _ hfwd), hb]
    rfl
  · intro hx
    simp [World.clampBody, hx]
  · intro hx
    have hx' : ¬ (b.tx < World.MARGIN) := by
      have : World.MARGIN < World.SCREEN_WIDTH - World.MARGIN := by
        norm_num [World.MARGIN, World.SCREEN_WIDTH]
      intro hlt
      exact absurd (lt_trans this hx) (by linarith)
    simp [World.clampBody, hx, hx']
  · intro hy
    simp [World.clampBody, hy]
  · intro hy
    have hy' : ¬ (b.ty < World.MARGIN) := by
      have : World.MARGIN < World.SCREEN_HEIGHT - World.MARGIN := by
        norm_num [World.MARGIN, World.SCREEN_HEIGHT]
      intro hlt
      exact absurd (lt_trans this hy) (by linarith)
    simp [World.clampBody, hy, hy']

/-- Witness for C2 (amended): concrete low-edge world, identity solver step. -/
theorem boundary_bounce_witness :
    ∃ b', lookupT 0 (worldLowEdge.step_physics (fun _ b => b)).physics_world.bodies = some b' ∧
      ((10 : ℚ) < World.MARGIN → b'.tx = World.MARGIN ∧ b'.vx = |(5 : ℚ)|) ∧
      ((10 : ℚ) > World.SCREEN_WIDTH - World.MARGIN →
        b'.tx = World.SCREEN_WIDTH - World.MARGIN ∧ b'.vx = -|(5 : ℚ)|) ∧
      ((10 : ℚ) < World.MARGIN → b'.ty = World.MARGIN ∧ b'.vy = |(4 : ℚ)|) ∧
      ((10 : ℚ) > World.SCREEN_HEIGHT - World.MARGIN →
        b'.ty = World.SCREEN_HEIGHT - World.MARGIN ∧ b'.vy = -|(4 : ℚ)|) :=
  boundary_bounce worldLowEdge (fun _ b => b) 0 0 ⟨10, 10, 5, 4, .Dynamic⟩
    (by decide) (by decide)

/-- Counterexample to C2 as stated: entity `0`'s body crosses the left and
top margins with pre-step velocity `(5, 4)` pointing inward; after
`step_physics()` the velocity is still `(5, 4)` — clamped coordinates, but
no sign flip relative to the pre-step sign (both components stay
positive). -/
theorem boundary_bounce_cex :
    lookupT 0 worldLowEdge.physics_world.bodies = some ⟨10, 10, 5, 4, .Dynamic⟩ ∧
    lookupT 0 (worldLowEdge.step_physics (fun _ b => b)).physics_world.bodies =
      some ⟨World.MARGIN, World.MARGIN, 5, 4, .Dynamic⟩ ∧
    (0 : ℚ) < 5 ∧ (0 : ℚ) < 4 := by
  refine ⟨by decide, by decide, by decide, by decide⟩

/-! ## C9: `set_physics_velocity` -/

/-- C9: for an entity without a body, `set_physics_velocity` is a no-op
(the whole `World` is returned unchanged); for an entity with body handle
`h`, it sets exactly that body's linear velocity, leaving its translation,
every other body, every component table, both handle maps, the collider
set and the allocator untouched. -/
theorem set_physics_velocity_contract (w : World) (e : Nat) (vx vy : ℚ) :
    (lookupT e w.entity_to_body = none → w.set_physics_velocity e vx vy = w) ∧
    (∀ h b, lookupT e w.entity_to_body = some h →
      lookupT h w.physics_world.bodies = some b →
      (lookupT h (w.set_physics_velocity e vx vy).physics_world.bodies =
          some { b with vx := vx, vy := vy }) ∧
      (∀ h', h' ≠ h →
        lookupT h' (w.set_physics_velocity e vx vy).physics_world.bodies =
          lookupT h' w.physics_world.bodies) ∧
      (w.set_physics_velocity e vx vy).positions = w.positions ∧
      (w.set_physics_velocity e vx vy).velocities = w.velocities ∧
      (w.set_physics_velocity e vx vy).sprites = w.sprites ∧
      (w.set_physics_velocity e vx vy).texture_sprites = w.texture_sprites ∧
      (w.set_physics_velocity e vx vy).entity_to_body = w.entity_to_body ∧
      (w.set_physics_velocity e vx vy).body_to_entity = w.body_to_entity ∧
      (w.set_physics_velocity e vx vy).collider_set = w.collider_set ∧
      (w.set_physics_velocity e vx vy).next_entity_id = w.next_entity_id ∧
      (w.set_physics_velocity e vx vy).physics_world.nextHandle =
        w.physics_world.nextHandle) := by
  constructor
  · intro h0
    simp [World.set_physics_velocity, h0]
  · intro h b hfwd hb
    simp only [World.set_physics_velocity, hfwd, hb]
    refine ⟨?_, ?_, trivial, trivial, trivial, trivial, trivial, trivial, trivial,
      trivial, trivial⟩
    · rw [lookupT_setRowT_self, hb]
      rfl
    · intro h' hne
      exact lookupT_setRowT_ne h h' _ _ (fun hh => hne hh.symm)

/-- Witness for C9: the no-op branch on a body-less entity of
`worldInBounds` (entity `7` has no body) and the write branch on entity `0`
(handle `0`). -/
theorem set_physics_velocity_contract_witness :
    (worldInBounds.set_physics_velocity 7 1 2 = worldInBounds) ∧
    (lookupT 0 (worldInBounds.set_physics_velocity 0 1 2).physics_world.bodies =
      some ⟨300, 300, 1, 2, .Dynamic⟩) :=
  ⟨(set_physics_velocity_contract worldInBounds 7 1 2).1 (by decide),
    ((set_physics_velocity_contract worldInBounds 0 1 2).2 0
      ⟨300, 300, 5, 0, .Dynamic⟩ (by decide) (by decide)).1⟩

/-! ## C3: `remove_entity` completeness -/

theorem lookupT_mem {κ α : Type} [DecidableEq κ] (k : κ) (v : α) (t : Table κ α)
    (h : lookupT k t = some v) : (k, v) ∈ t := by
  induction t with
  | nil => simp [lookupT] at h
  | cons p rest ih =>
    obtain ⟨a, b⟩ := p
    rw [lookupT_cons] at h
    by_cases ha : a = k
    · rw [if_pos ha] at h
      obtain rfl : b = v := Option.some_injective _ h
      simp [ha]
    · rw [if_neg ha] at h
      simp [ih h]

theorem mapsConsistent_of_B (w : World) (hB : mapsConsistentB w = true) :
    ∀ e h, lookupT e w.entity_to_body = some h ↔ lookupT h w.body_to_entity = some e := by
  rw [mapsConsistentB, Bool.and_eq_true, List.all_eq_true, List.all_eq_true] at hB
  intro e h
  constructor
  · intro hf
    have := hB.1 (e, h) (lookupT_mem e h _ hf)
    simpa using this
  · intro hr
    have := hB.2 (h, e) (lookupT_mem h e _ hr)
    simpa using this

/-- C3 (amended): on any world whose physics maps satisfy the spec's
referential-integrity invariant (forward row iff matching reverse row —
which fails only after re-adding a body to an already-bodied entity, see
the counterexample), `remove_entity(e)` is complete: every component getter
on `e` returns absence and neither handle map retains an entry for `e` or
for its former body handle. -/
theorem remove_entity_complete (w : World) (e : Nat)
    (hcons : mapsConsistentB w = true) :
    (w.remove_entity e).get_position e = none ∧
    (w.remove_entity e).get_velocity e = none ∧
    (w.remove_entity e).get_sprite e = none ∧
    (w.remove_entity e).get_texture_sprite e = none ∧
    lookupT e (w.remove_entity e).entity_to_body = none ∧
    (∀ h, lookupT h (w.remove_entity e).body_to_entity ≠ some e) ∧
    (∀ h, lookupT e w.entity_to_body = some h →
      lookupT h (w.remove_entity e).body_to_entity = none) := by
  have hiff := mapsConsistent_of_B w hcons
  cases hfwd : lookupT e w.entity_to_body with
  | none =>
    simp only [World.remove_entity, hfwd]
    refine ⟨lookupT_eraseT_self _ _, lookupT_eraseT_self _ _, lookupT_eraseT_self _ _,
      lookupT_eraseT_self _ _, by simp [hfwd], ?_, ?_⟩
    · intro h hrev
      rw [← hiff e h] at hrev
      exact absurd hrev (by simp [hfwd])
    · intro h hh
      exact absurd hh (by simp [hfwd])
  | some h₀ =>
    simp only [World.remove_entity, hfwd]
    refine ⟨lookupT_eraseT_self _ _, lookupT_eraseT_self _ _, lookupT_eraseT_self _ _,
      lookupT_eraseT_self _ _, lookupT_eraseT_self _ _, ?_, ?_⟩
    · intro h hrev
      by_cases hh : h = h₀
      · subst hh
        rw [lookupT_eraseT_self] at hrev
        exact absurd hrev (by simp)
      · rw [lookupT_eraseT_ne h₀ h _ (fun hhh => hh hhh.symm)] at hrev
        rw [← hiff e h] at hrev
        rw [hfwd] at hrev
        exact hh (Option.some_injective _ hrev).symm
    · intro h hh
      obtain rfl : h₀ = h := Option.some_injective _ hh
      exact lookupT_eraseT_self _ _

/-- Witness for C3 (amended): removal of entity `0` (which owns body `0`)
from a consistent concrete world. -/
theorem remove_entity_complete_witness :
    (worldInBounds.remove_entity 0).get_position 0 = none ∧
    (worldInBounds.remove_entity 0).get_velocity 0 = none ∧
    (worldInBounds.remove_entity 0).get_sprite 0 = none ∧
    (worldInBounds.remove_entity 0).get_texture_sprite 0 = none ∧
    lookupT 0 (worldInBounds.remove_entity 0).entity_to_body = none ∧
    lookupT 0 (worldInBounds.remove_entity 0).body_to_entity ≠ some 0 ∧
    lookupT 0 (worldInBounds.remove_entity 0).body_to_entity = none := by
  have h := remove_entity_complete worldInBounds 0 (by decide)
  exact ⟨h.1, h.2.1, h.2.2.1, h.2.2.2.1, h.2.2.2.2.1,
    h.2.2.2.2.2.1 0, h.2.2.2.2.2.2 0 (by decide)⟩

/-- Counterexample to C3 as stated (quantifying over *every* world state):
in the reachable state produced by two `add_physics_body` calls on entity
`0`, `remove_entity(0)` erases only the current handle `1`, leaving the
stale reverse entry mapping former handle `0` back to entity `0` — and the
stale body itself survives in the authority. -/
theorem remove_entity_complete_cex :
    lookupT 0 (worldDoubleBody.remove_entity 0).body_to_entity = some 0 ∧
    lookupT 0 (worldDoubleBody.remove_entity 0).entity_to_body = none ∧
    lookupT 0 (worldDoubleBody.remove_entity 0).physics_world.bodies =
      some ⟨1, 2, 0, 0, .Dynamic⟩ := by
  refine ⟨by decide, by decide, by decide⟩

/-! ## C4: bidirectional-map integrity -/

theorem inv_applyOp (w : World) (op : Op)
    (hpair : ∀ e h, lookupT e w.entity_to_body = some h ↔
      lookupT h w.body_to_entity = some e)
    (hbound : ∀ e h, lookupT e w.entity_to_body = some h →
      h < w.physics_world.nextHandle)
    (hg : goodOp w op = true) :
    (∀ e h, lookupT e (applyOp w op).entity_to_body = some h ↔
      lookupT h (applyOp w op).body_to_entity = some e) ∧
    (∀ e h, lookupT e (applyOp w op).entity_to_body = some h →
      h < (applyOp w op).physics_world.nextHandle) := by
  cases op with
  | createE => exact ⟨hpair, hbound⟩
  | addPosition e p => exact ⟨hpair, hbound⟩
  | addVelocity e v => exact ⟨hpair, hbound⟩
  | addSprite e s => exact ⟨hpair, hbound⟩
  | addTextureSprite e t => exact ⟨hpair, hbound⟩
  | stepPhysicsOp stepF => exact ⟨hpair, hbound⟩
  | setPhysicsVelocity e vx vy =>
    have heq : applyOp w (.setPhysicsVelocity e vx vy) = w.set_physics_velocity e vx vy := rfl
    have hfields :
        (w.set_physics_velocity e vx vy).entity_to_body = w.entity_to_body ∧
        (w.set_physics_velocity e vx vy).body_to_entity = w.body_to_entity ∧
        (w.set_physics_velocity e vx vy).physics_world.nextHandle =
          w.physics_world.nextHandle := by
      cases hf : lookupT e w.entity_to_body with
      | none => simp [World.set_physics_velocity, hf]
      | some h =>
        cases hb : lookupT h w.physics_world.bodies <;>
          simp [World.set_physics_velocity, hf, hb]
    rw [heq, hfields.1, hfields.2.1, hfields.2.2]
    exact ⟨hpair, hbound⟩
  | addPhysicsBody e p sz bt =>
    have hnone : lookupT e w.entity_to_body = none := by
      simpa [goodOp, Option.isNone_iff_eq_none] using hg
    have hfwd : (applyOp w (.addPhysicsBody e p sz bt)).entity_to_body =
        putT e w.physics_world.nextHandle w.entity_to_body := rfl
    have hrev : (applyOp w (.addPhysicsBody e p sz bt)).body_to_entity =
        putT w.physics_world.nextHandle e w.body_to_entity := rfl
    have hnh : (applyOp w (.addPhysicsBody e p sz bt)).physics_world.nextHandle =
        w.physics_world.nextHandle + 1 := rfl
    rw [hfwd, hrev, hnh]
    set n := w.physics_world.nextHandle with hn
    constructor
    · intro e' h'
      by_cases he : e' = e
      · subst he
        rw [lookupT_putT_self]
        by_cases hh : h' = n
        · subst hh
          rw [lookupT_putT_self]
          simp
        · rw [lookupT_putT_ne n h' e' _ (fun hx => hh hx.symm)]
          constructor
          · intro hx
            exact absurd (Option.some_injective _ hx) (fun hy => hh hy.symm)
          · intro hx
            exact absurd ((hpair e' h').mpr hx) (by simp [hnone])
      · rw [lookupT_putT_ne e e' n _ (fun hx => he hx.symm)]
        by_cases hh : h' = n
        · subst hh
          rw [lookupT_putT_self]
          constructor
          · intro hx
            exact absurd (hbound e' n hx) (lt_irrefl n)
          · intro hx
            exact absurd (Option.some_injective _ hx) (fun hy => he hy.symm)
        · rw [lookupT_putT_ne n h' e _ (fun hx => hh hx.symm)]
          exact hpair e' h'
    · intro e' h'
      by_cases he : e' = e
      · subst he
        rw [lookupT_putT_self]
        intro hx
        obtain rfl : n = h' := Option.some_injective _ hx
        exact Nat.lt_succ_self n
      · rw [lookupT_putT_ne e e' n _ (fun hx => he hx.symm)]
        intro hx
        exact Nat.lt_succ_of_lt (hbound e' h' hx)
  | removeEntity e =>
    cases hfwd : lookupT e w.entity_to_body with
    | none =>
      have hfix : applyOp w (.removeEntity e) = w.remove_entity e := rfl
      rw [hfix]
      unfold World.remove_entity
      rw [hfwd]
      exact ⟨hpair, hbound⟩
    | some h₀ =>
      have hfix : applyOp w (.removeEntity e) = w.remove_entity e := rfl
      rw [hfix]
      unfold World.remove_entity
      rw [hfwd]
      constructor
      · intro e' h'
        by_cases he : e' = e
        · subst he
          rw [lookupT_eraseT_self]
          constructor
          · intro hx
            exact absurd hx (by simp)
          · intro hx
            by_cases hh : h' = h₀
            · subst hh
              rw [lookupT_eraseT_self] at hx
              exact absurd hx (by simp)
            · rw [lookupT_eraseT_ne h₀ h' _ (fun hy => hh hy.symm)] at hx
              have := (hpair e' h').mpr hx
              rw [hfwd] at this
              exact absurd (Option.some_injective _ this).symm hh
        · rw [lookupT_eraseT_ne e e' _ (fun hy => he hy.symm)]
          by_cases hh : h' = h₀
          · subst hh
            rw [lookupT_eraseT_self]
            constructor
            · intro hx
              have hrev' : lookupT h' w.body_to_entity = some e' := (hpair e' h').mp hx
              have hrev'' : lookupT h' w.body_to_entity = some e := (hpair e h').mp hfwd
              exact absurd (Option.some_injective _ (hrev'.symm.trans hrev'')) he
            · intro hx
              exact absurd hx (by simp)
          · rw [lookupT_eraseT_ne h₀ h' _ (fun hy => hh hy.symm)]
            exact hpair e' h'
      · intro e' h'
        by_cases he : e' = e
        · subst he
          rw [lookupT_eraseT_self]
          intro hx
          exact absurd hx (by simp)
        · rw [lookupT_eraseT_ne e e' _ (fun hy => he hy.symm)]
          exact hbound e' h'

theorem inv_runOpsFrom (ops : List Op) (w : World)
    (hpair : ∀ e h, lookupT e w.entity_to_body = some h ↔
      lookupT h w.body_to_entity = some e)
    (hbound : ∀ e h, lookupT e w.entity_to_body = some h →
      h < w.physics_world.nextHandle)
    (hg : goodRun w ops = true) :
    (∀ e h, lookupT e (runOpsFrom w ops).entity_to_body = some h ↔
      lookupT h (runOpsFrom w ops).body_to_entity = some e) ∧
    (∀ e h, lookupT e (runOpsFrom w ops).entity_to_body = some h →
      h < (runOpsFrom w ops).physics_world.nextHandle) := by
  induction ops generalizing w with
  | nil => exact ⟨hpair, hbound⟩
  | cons op rest ih =>
    rw [goodRun, Bool.and_eq_true] at hg
    have step := inv_applyOp w op hpair hbound hg.1
    exact ih (applyOp w op) step.1 step.2 hg.2

/-- C4 (amended): along every call sequence in which `add_physics_body` is
never re-invoked on an entity that already has a body, the reachable state
satisfies referential integrity — a forward entry `(e, h)` exists iff the
matching reverse entry `(h, e)` exists — and each entity is associated with
at most one body handle.  The unamended claim (arbitrary sequences,
repeated `add_physics_body` included) fails: re-adding a body leaves a
stale reverse entry (see counterexample). -/
theorem physics_maps_integrity (ops : List Op)
    (hg : goodRun World.new ops = true) :
    (∀ e h, lookupT e (runOps ops).entity_to_body = some h ↔
      lookupT h (runOps ops).body_to_entity = some e) ∧
    (∀ e h h', lookupT h (runOps ops).body_to_entity = some e →
      lookupT h' (runOps ops).body_to_entity = some e → h = h') := by
  have base := inv_runOpsFrom ops World.new
    (by intro e h; simp [World.new, lookupT])
    (by intro e h hx; simp [World.new, lookupT] at hx)
    hg
  refine ⟨base.1, ?_⟩
  intro e h h' h1 h2
  have f1 := (base.1 e h).mpr h1
  have f2 := (base.1 e h').mpr h2
  exact Option.some_injective _ (f1.symm.trans f2)

/-- Witness for C4 (amended): a guarded sequence creating entity `0` and
attaching one body (handle `0`). -/
theorem physics_maps_integrity_witness :
    (lookupT 0 (runOps [Op.createE,
        Op.addPhysicsBody 0 ⟨1, 2⟩ 32 .Dynamic]).entity_to_body = some 0 ↔
      lookupT 0 (runOps [Op.createE,
        Op.addPhysicsBody 0 ⟨1, 2⟩ 32 .Dynamic]).body_to_entity = some 0) ∧
    ((0 : Nat) = 0) :=
  ⟨(physics_maps_integrity [Op.createE, Op.addPhysicsBody 0 ⟨1, 2⟩ 32 .Dynamic]
      (by decide)).1 0 0,
    (physics_maps_integrity [Op.createE, Op.addPhysicsBody 0 ⟨1, 2⟩ 32 .Dynamic]
      (by decide)).2 0 0 0 (by decide) (by decide)⟩

/-- Counterexample to C4 as stated: after the reachable sequence
`create_entity(); add_physics_body(0, ...); add_physics_body(0, ...)` the
reverse map still holds the stale entry `(0 ↦ 0)` while the forward map
holds `(0 ↦ 1)` — the iff fails at `(e, h) = (0, 0)`, and entity `0` is
referenced by two reverse entries (handles `0` and `1`). -/
theorem physics_maps_integrity_cex :
    lookupT 0 worldDoubleBody.body_to_entity = some 0 ∧
    lookupT 0 worldDoubleBody.entity_to_body = some 1 ∧
    lookupT 1 worldDoubleBody.body_to_entity = some 0 ∧
    ¬ (lookupT 0 worldDoubleBody.entity_to_body = some 0) := by
  refine ⟨by decide, by decide, by decide, by decide⟩

/-! ## C7: entity allocator -/

theorem next_applyOp_of_ne_create (w : World) (op : Op)
    (h : countCreates [op] = 0) :
    (applyOp w op).next_entity_id = w.next_entity_id := by
  cases op <;> try rfl
  case createE => simp [countCreates, List.countP_cons] at h
  case setPhysicsVelocity e vx vy =>
    cases hf : lookupT e w.entity_to_body with
    | none => simp [applyOp, World.set_physics_velocity, hf]
    | some hh =>
      cases hb : lookupT hh w.physics_world.bodies <;>
        simp [applyOp, World.set_physics_velocity, hf, hb]
  case removeEntity e =>
    cases hf : lookupT e w.entity_to_body <;>
      simp [applyOp, World.remove_entity, hf]

theorem traceIds_eq (ops : List Op) (w : World) (hw : w.next_entity_id < u32size) :
    traceIds w ops =
      (List.range (countCreates ops)).map
        (fun i => (w.next_entity_id + i) % u32size) := by
  induction ops generalizing w with
  | nil => simp [traceIds, countCreates]
  | cons op rest ih =>
    cases hc : countCreates [op] with
    | zero =>
      have hop : op ≠ Op.createE := by
        intro hx
        subst hx
        simp [countCreates, List.countP_cons] at hc
      have hstep : traceIds w (op :: rest) = traceIds (applyOp w op) rest := by
        cases op <;> first | rfl | exact absurd rfl hop
      have hcnt : countCreates (op :: rest) = countCreates rest := by
        simp only [countCreates, List.countP_cons, List.countP_nil, Nat.zero_add] at hc ⊢
        omega
      rw [hstep, hcnt, ih (applyOp w op)
        (by rw [next_applyOp_of_ne_create w op hc]; exact hw),
        next_applyOp_of_ne_create w op hc]
    | succ k =>
      have hop : op = Op.createE := by
        cases op <;> first
          | rfl
          | simp [countCreates, List.countP_cons, List.countP_nil] at hc
      subst hop
      have hnext : (applyOp w Op.createE).next_entity_id =
          (w.next_entity_id + 1) % u32size := rfl
      have hlt : (applyOp w Op.createE).next_entity_id < u32size := by
        rw [hnext]
        exact Nat.mod_lt _ (by simp [u32size])
      have hcnt : countCreates (Op.createE :: rest) = countCreates rest + 1 := by
        rw [countCreates, List.countP_cons]
        simp [countCreates]
      rw [show traceIds w (Op.createE :: rest) =
            w.next_entity_id :: traceIds (applyOp w Op.createE) rest from rfl,
        ih (applyOp w Op.createE) hlt, hnext, hcnt, List.range_succ_eq_map]
      rw [List.map_cons, List.map_map]
      congr 1
      · exact (Nat.mod_eq_of_lt hw).symm.trans (by rw [Nat.add_zero])
      · apply List.map_congr_left
        intro i _
        show ((w.next_entity_id + 1) % u32size + i) % u32size =
          (w.next_entity_id + Nat.succ i) % u32size
        rw [Nat.mod_add_mod]
        congr 1
        omega

theorem countCreates_replicate (n : Nat) :
    countCreates (List.replicate n Op.createE) = n := by
  induction n with
  | zero => rfl
  | succ k ih =>
    rw [List.replicate_succ, countCreates, List.countP_cons]
    rw [countCreates] at ih
    simp [ih]

/-- C7 (amended): starting from `World::new()`, along any call sequence
with at most `2^32` calls to `create_entity` (interleaved with arbitrary
other operations, `remove_entity` included), the returned identifiers are
exactly `0, 1, 2, …` in order — distinct, strictly increasing, gapless and
never reused.  Beyond `2^32` calls the `u32` counter wraps and identifier
`0` is returned again (see counterexample). -/
theorem create_entity_ids (ops : List Op)
    (hcount : countCreates ops ≤ u32size) :
    traceIds World.new ops = List.range (countCreates ops) := by
  rw [traceIds_eq ops World.new (by simp [World.new, u32size])]
  have : ∀ i ∈ List.range (countCreates ops),
      (World.new.next_entity_id + i) % u32size = i := by
    intro i hi
    rw [List.mem_range] at hi
    show (0 + i) % u32size = i
    rw [Nat.zero_add]
    exact Nat.mod_eq_of_lt (lt_of_lt_of_le hi hcount)
  rw [List.map_congr_left this]
  simp

/-- Witness for C7 (amended): three creations interleaved with other calls
return `[0, 1, 2]`. -/
theorem create_entity_ids_witness :
    traceIds World.new [Op.createE, Op.addPosition 0 ⟨1, 2⟩, Op.createE,
      Op.removeEntity 0, Op.createE] = List.range 3 :=
  create_entity_ids [Op.createE, Op.addPosition 0 ⟨1, 2⟩, Op.createE,
    Op.removeEntity 0, Op.createE] (by decide)

/-- Counterexample to C7 as stated (for *every* N): after `2^32 + 1`
creations the `u32` counter has wrapped — the last call returns identifier
`0`, which the first call already returned, so the ids are neither strictly
increasing nor reuse-free. -/
theorem create_entity_ids_cex :
    (traceIds World.new (List.replicate (u32size + 1) Op.createE))[u32size]? = some 0 ∧
    (traceIds World.new (List.replicate (u32size + 1) Op.createE))[0]? = some 0 ∧
    u32size ≠ 0 := by
  have h := traceIds_eq (List.replicate (u32size + 1) Op.createE) World.new
    (by simp [World.new, u32size])
  rw [countCreates_replicate] at h
  rw [h]
  refine ⟨?_, ?_, by simp [u32size]⟩
  · rw [List.getElem?_map, List.getElem?_range (Nat.lt_succ_self _)]
    show some ((World.new.next_entity_id + u32size) % u32size) = some 0
    simp [World.new]
  · rw [List.getElem?_map, List.getElem?_range (Nat.succ_pos _)]
    show some ((World.new.next_entity_id + 0) % u32size) = some 0
    simp [World.new, u32size]

/-! ## C5: Position+Velocity inner join -/

theorem movementQuery_map_fst (l : List Nat) (pos : Table Nat Position)
    (vel : Table Nat Velocity) :
    (l.filterMap (fun entity =>
        match lookupT entity pos, lookupT entity vel with
        | some position, some velocity => some (entity, position, velocity)
        | _, _ => none)).map (fun r => r.1) =
      l.filter (fun entity =>
        (lookupT entity pos).isSome && (lookupT entity vel).isSome) := by
  induction l with
  | nil => rfl
  | cons a rest ih =>
    cases hp : lookupT a pos <;> cases hv : lookupT a vel <;>
      simp [List.filterMap_cons, List.filter_cons, hp, hv, ih]

/-- C5: the Position+Velocity query yields exactly the entities present in
*both* tables, each with its stored components and (on a well-formed table,
keys nodup as in any real `HashMap`) exactly once. -/
theorem movement_query_inner_join (w : World)
    (hnd : (keysOf w.positions).Nodup) :
    (∀ e p v, (e, p, v) ∈ MovementQuery.query w ↔
      (lookupT e w.positions = some p ∧ lookupT e w.velocities = some v)) ∧
    ((MovementQuery.query w).map (fun r => r.1)).Nodup := by
  constructor
  · intro e p v
    rw [MovementQuery.query, List.mem_filterMap]
    constructor
    · rintro ⟨a, _, hfa⟩
      cases hp : lookupT a w.positions with
      | none => rw [hp] at hfa; simp at hfa
      | some p' =>
        cases hv : lookupT a w.velocities with
        | none => rw [hp, hv] at hfa; simp at hfa
        | some v' =>
          rw [hp, hv] at hfa
          obtain ⟨rfl, rfl, rfl⟩ :
              a = e ∧ p' = p ∧ v' = v := by
            have := Option.some_injective _ hfa
            exact ⟨congrArg Prod.fst this,
              congrArg (fun r => r.2.1) this, congrArg (fun r => r.2.2) this⟩
          exact ⟨hp, hv⟩
    · rintro ⟨hp, hv⟩
      refine ⟨e, ?_, ?_⟩
      · rw [← lookupT_isSome_iff_mem_keysOf, hp]
        rfl
      · rw [hp, hv]
  · rw [MovementQuery.query, movementQuery_map_fst]
    exact hnd.filter _

/-- Witness for C5: on the spec's example world, `(1, (1,1), (2,2))` is
yielded (both components present) and the yield is duplicate-free. -/
theorem movement_query_inner_join_witness :
    ((1, (⟨1, 1⟩ : Position), (⟨2, 2⟩ : Velocity)) ∈ MovementQuery.query worldJoin ↔
      (lookupT 1 worldJoin.positions = some ⟨1, 1⟩ ∧
        lookupT 1 worldJoin.velocities = some ⟨2, 2⟩)) ∧
    ((MovementQuery.query worldJoin).map (fun r => r.1)).Nodup :=
  ⟨(movement_query_inner_join worldJoin (by decide)).1 1 ⟨1, 1⟩ ⟨2, 2⟩,
    (movement_query_inner_join worldJoin (by decide)).2⟩

/-! ## C6: scheduler ordering -/

/-- C6: `Scheduler::update` runs the registered stages exactly once each,
in registration order, threading the World and passing the same `dt` to
every stage: a newly appended stage runs last, on the state produced by all
earlier stages, and the empty scheduler is the identity — so earlier
stages' World mutations are visible to later stages within the same update,
and (third conjunct) swapping registration order can change the resulting
world state: the spec's example stages "set Velocity(0)=(5,0)" and
"Position += Velocity·dt" produce different worlds in the two orders. -/
theorem scheduler_order_contract :
    (∀ (s : Scheduler) (f : SystemFn) (w : World) (dt : ℚ),
      (s.add_system f).update w dt = f (s.update w dt) dt) ∧
    (∀ (w : World) (dt : ℚ), Scheduler.new.update w dt = w) ∧
    (∃ (A B : SystemFn) (w : World) (dt : ℚ),
      ((Scheduler.new.add_system A).add_system B).update w dt ≠
        ((Scheduler.new.add_system B).add_system A).update w dt) := by
  refine ⟨?_, ?_, ?_⟩
  · intro s f w dt
    simp [Scheduler.update, Scheduler.add_system, List.foldl_append]
  · intro w dt
    rfl
  · refine ⟨setVelocitySystem, movementSystem, worldSched, 1, ?_⟩
    intro hcontra
    have hAB : lookupT 0 (((Scheduler.new.add_system setVelocitySystem).add_system
        movementSystem).update worldSched 1).positions =
        some ⟨0 + 5 * 1, 0 + 0 * 1⟩ := rfl
    have hBA : lookupT 0 (((Scheduler.new.add_system movementSystem).add_system
        setVelocitySystem).update worldSched 1).positions =
        some ⟨0 + 0 * 1, 0 + 0 * 1⟩ := rfl
    rw [hcontra, hBA] at hAB
    have hx : (0 + 0 * 1 : ℚ) = 0 + 5 * 1 :=
      congrArg Position.x (Option.some_injective _ hAB)
    norm_num at hx

/-! ## C8: scene spawning -/

theorem spawnOne_fst (w : World) (d : EntityData) :
    (SceneLoader.spawnOne w d).1 = w.next_entity_id := rfl

theorem spawnOne_next (w : World) (d : EntityData) :
    (SceneLoader.spawnOne w d).2.next_entity_id = (w.next_entity_id + 1) % u32size := by
  obtain ⟨nm, op, ov, ot, ob⟩ := d
  cases op <;> cases ov <;> cases ot <;> cases ob <;> rfl

theorem spawnOne_rows_self (w : World) (d : EntityData) :
    (lookupT w.next_entity_id (SceneLoader.spawnOne w d).2.positions =
      match d.position with
      | some p => some p
      | none => lookupT w.next_entity_id w.positions) ∧
    (lookupT w.next_entity_id (SceneLoader.spawnOne w d).2.velocities =
      match d.velocity with
      | some v => some v
      | none => lookupT w.next_entity_id w.velocities) ∧
    (lookupT w.next_entity_id (SceneLoader.spawnOne w d).2.texture_sprites =
      match d.texture_sprite with
      | some t => some t
      | none => lookupT w.next_entity_id w.texture_sprites) ∧
    ((lookupT w.next_entity_id (SceneLoader.spawnOne w d).2.entity_to_body).isSome =
      (d.physics_body.isSome ||
        (lookupT w.next_entity_id w.entity_to_body).isSome)) := by
  obtain ⟨nm, op, ov, ot, ob⟩ := d
  cases op <;> cases ov <;> cases ot <;> cases ob <;>
    simp [SceneLoader.spawnOne, World.create_entity, World.add_position,
      World.add_velocity, World.add_texture_sprite, World.add_physics_body,
      lookupT_putT_self]

theorem spawnOne_rows_other (w : World) (d : EntityData) (e : Nat)
    (he : e ≠ w.next_entity_id) :
    lookupT e (SceneLoader.spawnOne w d).2.positions = lookupT e w.positions ∧
    lookupT e (SceneLoader.spawnOne w d).2.velocities = lookupT e w.velocities ∧
    lookupT e (SceneLoader.spawnOne w d).2.texture_sprites =
      lookupT e w.texture_sprites ∧
    lookupT e (SceneLoader.spawnOne w d).2.entity_to_body =
      lookupT e w.entity_to_body := by
  obtain ⟨nm, op, ov, ot, ob⟩ := d
  cases op <;> cases ov <;> cases ot <;> cases ob <;>
    simp [SceneLoader.spawnOne, World.create_entity, World.add_position,
      World.add_velocity, World.add_texture_sprite, World.add_physics_body,
      lookupT_putT_ne _ _ _ _ (fun hx => he hx.symm)]

theorem spawnLoop_next (l : List EntityData) (w : World) (m : Table String Nat)
    (idx : Nat) (hw : w.next_entity_id + l.length < u32size) :
    (SceneLoader.spawnLoop w m idx l).2.next_entity_id =
      w.next_entity_id + l.length := by
  induction l generalizing w m idx with
  | nil => simp [SceneLoader.spawnLoop]
  | cons d rest ih =>
    rw [SceneLoader.spawnLoop]
    have hlen : w.next_entity_id + (rest.length + 1) < u32size := by
      simpa [List.length_cons] using hw
    have hn : (SceneLoader.spawnOne w d).2.next_entity_id = w.next_entity_id + 1 := by
      rw [spawnOne_next]
      exact Nat.mod_eq_of_lt (by omega)
    rw [ih _ _ _ (by rw [hn]; omega), hn, List.length_cons]
    omega

theorem spawnLoop_rows_below (l : List EntityData) (w : World) (m : Table String Nat)
    (idx : Nat) (e : Nat) (he : e < w.next_entity_id)
    (hw : w.next_entity_id + l.length < u32size) :
    lookupT e (SceneLoader.spawnLoop w m idx l).2.positions = lookupT e w.positions ∧
    lookupT e (SceneLoader.spawnLoop w m idx l).2.velocities = lookupT e w.velocities ∧
    lookupT e (SceneLoader.spawnLoop w m idx l).2.texture_sprites =
      lookupT e w.texture_sprites ∧
    lookupT e (SceneLoader.spawnLoop w m idx l).2.entity_to_body =
      lookupT e w.entity_to_body := by
  induction l generalizing w m idx with
  | nil => exact ⟨rfl, rfl, rfl, rfl⟩
  | cons d rest ih =>
    rw [SceneLoader.spawnLoop]
    have hlen : w.next_entity_id + (rest.length + 1) < u32size := by
      simpa [List.length_cons] using hw
    have hn : (SceneLoader.spawnOne w d).2.next_entity_id = w.next_entity_id + 1 := by
      rw [spawnOne_next]
      exact Nat.mod_eq_of_lt (by omega)
    obtain ⟨h1, h2, h3, h4⟩ := spawnOne_rows_other w d e (Nat.ne_of_lt he)
    obtain ⟨g1, g2, g3, g4⟩ := ih (SceneLoader.spawnOne w d).2 _ (idx + 1)
      (by rw [hn]; omega) (by rw [hn]; omega)
    exact ⟨g1.trans h1, g2.trans h2, g3.trans h3, g4.trans h4⟩

theorem spawnLoop_rows (l : List EntityData) (w : World) (m : Table String Nat)
    (idx : Nat) (i : Nat) (hi : i < l.length)
    (hw : w.next_entity_id + l.length < u32size) :
    (lookupT (w.next_entity_id + i) (SceneLoader.spawnLoop w m idx l).2.positions =
      match (l.get ⟨i, hi⟩).position with
      | some p => some p
      | none => lookupT (w.next_entity_id + i) w.positions) ∧
    (lookupT (w.next_entity_id + i) (SceneLoader.spawnLoop w m idx l).2.velocities =
      match (l.get ⟨i, hi⟩).velocity with
      | some v => some v
      | none => lookupT (w.next_entity_id + i) w.velocities) ∧
    (lookupT (w.next_entity_id + i) (SceneLoader.spawnLoop w m idx l).2.texture_sprites =
      match (l.get ⟨i, hi⟩).texture_sprite with
      | some t => some t
      | none => lookupT (w.next_entity_id + i) w.texture_sprites) ∧
    ((lookupT (w.next_entity_id + i)
        (SceneLoader.spawnLoop w m idx l).2.entity_to_body).isSome =
      ((l.get ⟨i, hi⟩).physics_body.isSome ||
        (lookupT (w.next_entity_id + i) w.entity_to_body).isSome)) := by
  induction l generalizing w m idx i with
  | nil => exact absurd hi (by simp)
  | cons d rest ih =>
    have hlen : w.next_entity_id + (rest.length + 1) < u32size := by
      simpa [List.length_cons] using hw
    have hn : (SceneLoader.spawnOne w d).2.next_entity_id = w.next_entity_id + 1 := by
      rw [spawnOne_next]
      exact Nat.mod_eq_of_lt (by omega)
    cases i with
    | zero =>
      rw [SceneLoader.spawnLoop]
      have hself := spawnOne_rows_self w d
      obtain ⟨g1, g2, g3, g4⟩ := spawnLoop_rows_below rest (SceneLoader.spawnOne w d).2
        (putT (SceneLoader.spawnKey idx d) (SceneLoader.spawnOne w d).1 m) (idx + 1)
        w.next_entity_id (by rw [hn]; omega) (by rw [hn]; omega)
      rw [Nat.add_zero]
      exact ⟨g1.trans hself.1, g2.trans hself.2.1, g3.trans hself.2.2.1,
        (congrArg Option.isSome g4).trans hself.2.2.2⟩
    | succ j =>
      rw [SceneLoader.spawnLoop]
      have hj : j < rest.length := by
        simpa [List.length_cons] using hi
      obtain ⟨h1, h2, h3, h4⟩ := spawnOne_rows_other w d (w.next_entity_id + (j + 1))
        (by omega)
      obtain ⟨g1, g2, g3, g4⟩ := ih (SceneLoader.spawnOne w d).2
        (putT (SceneLoader.spawnKey idx d) (SceneLoader.spawnOne w d).1 m) (idx + 1) j hj
        (by rw [hn]; omega)
      rw [hn] at g1 g2 g3 g4
      rw [show w.next_entity_id + 1 + j = w.next_entity_id + (j + 1) by omega]
        at g1 g2 g3 g4
      rw [h1] at g1
      rw [h2] at g2
      rw [h3] at g3
      rw [h4] at g4
      exact ⟨g1, g2, g3, g4⟩

theorem spawnLoop_map_not_mem (l : List EntityData) (w : World)
    (m : Table String Nat) (idx : Nat) (k : String)
    (hk : k ∉ SceneLoader.spawnKeysFrom idx l) :
    lookupT k (SceneLoader.spawnLoop w m idx l).1 = lookupT k m := by
  induction l generalizing w m idx with
  | nil => rfl
  | cons d rest ih =>
    rw [SceneLoader.spawnLoop]
    rw [SceneLoader.spawnKeysFrom] at hk
    simp only [List.mem_cons, not_or] at hk
    rw [ih _ _ _ hk.2]
    exact lookupT_putT_ne _ _ _ _ (fun hx => hk.1 hx.symm)

theorem spawnLoop_map_self (l : List EntityData) (w : World) (m : Table String Nat)
    (idx : Nat) (hnd : (SceneLoader.spawnKeysFrom idx l).Nodup)
    (hw : w.next_entity_id + l.length < u32size) (i : Nat) (hi : i < l.length) :
    lookupT (SceneLoader.spawnKey (idx + i) (l.get ⟨i, hi⟩))
      (SceneLoader.spawnLoop w m idx l).1 = some (w.next_entity_id + i) := by
  induction l generalizing w m idx i with
  | nil => exact absurd hi (by simp)
  | cons d rest ih =>
    have hlen : w.next_entity_id + (rest.length + 1) < u32size := by
      simpa [List.length_cons] using hw
    have hn : (SceneLoader.spawnOne w d).2.next_entity_id = w.next_entity_id + 1 := by
      rw [spawnOne_next]
      exact Nat.mod_eq_of_lt (by omega)
    rw [SceneLoader.spawnKeysFrom, List.nodup_cons] at hnd
    cases i with
    | zero =>
      rw [SceneLoader.spawnLoop, Nat.add_zero]
      rw [show (d :: rest).get ⟨0, hi⟩ = d from rfl]
      rw [spawnLoop_map_not_mem rest _ _ (idx + 1) _ hnd.1]
      rw [lookupT_putT_self, spawnOne_fst, Nat.add_zero]
    | succ j =>
      rw [SceneLoader.spawnLoop]
      have hj : j < rest.length := by
        simpa [List.length_cons] using hi
      have := ih (SceneLoader.spawnOne w d).2
        (putT (SceneLoader.spawnKey idx d) (SceneLoader.spawnOne w d).1 m) (idx + 1) hnd.2
        (by rw [hn]; omega) j hj
      rw [hn] at this
      rw [show idx + 1 + j = idx + (j + 1) by omega,
        show w.next_entity_id + 1 + j = w.next_entity_id + (j + 1) by omega] at this
      exact this

/-- C8 (amended): provided the `u32` allocator does not wrap during the
spawn (`next_entity_id + #bundles < 2^32` — the only amendment forced by
the counterexample), `spawn_scene` creates exactly one fresh entity per
bundle in bundle order (bundle `i` receives identifier `next + i` and the
allocator advances by exactly the bundle count), adds exactly the
components whose fields are present in that bundle (absent fields leave the
entity's rows untouched), and returns a name→entity map keying bundle `i`
by its name, or by `"entity_" ++ i` when unnamed (map lookup stated under
pairwise-distinct keys, since a duplicated name can only hold the later
entity). -/
theorem spawn_scene_contract (scene : Scene) (w : World)
    (hw : w.next_entity_id + scene.entities.length < u32size) :
    ((SceneLoader.spawn_scene scene w).2.next_entity_id =
      w.next_entity_id + scene.entities.length) ∧
    (∀ i (hi : i < scene.entities.length),
      (lookupT (w.next_entity_id + i) (SceneLoader.spawn_scene scene w).2.positions =
        match (scene.entities.get ⟨i, hi⟩).position with
        | some p => some p
        | none => lookupT (w.next_entity_id + i) w.positions) ∧
      (lookupT (w.next_entity_id + i) (SceneLoader.spawn_scene scene w).2.velocities =
        match (scene.entities.get ⟨i, hi⟩).velocity with
        | some v => some v
        | none => lookupT (w.next_entity_id + i) w.velocities) ∧
      (lookupT (w.next_entity_id + i)
          (SceneLoader.spawn_scene scene w).2.texture_sprites =
        match (scene.entities.get ⟨i, hi⟩).texture_sprite with
        | some t => some t
        | none => lookupT (w.next_entity_id + i) w.texture_sprites) ∧
      ((lookupT (w.next_entity_id + i)
          (SceneLoader.spawn_scene scene w).2.entity_to_body).isSome =
        ((scene.entities.get ⟨i, hi⟩).physics_body.isSome ||
          (lookupT (w.next_entity_id + i) w.entity_to_body).isSome))) ∧
    ((SceneLoader.spawnKeysFrom 0 scene.entities).Nodup →
      ∀ i (hi : i < scene.entities.length),
        lookupT (SceneLoader.spawnKey i (scene.entities.get ⟨i, hi⟩))
          (SceneLoader.spawn_scene scene w).1 = some (w.next_entity_id + i)) := by
  refine ⟨spawnLoop_next _ w [] 0 hw, ?_, ?_⟩
  · intro i hi
    exact spawnLoop_rows scene.entities w [] 0 i hi hw
  · intro hnd i hi
    have := spawnLoop_map_self scene.entities w [] 0 hnd hw i hi
    rwa [Nat.zero_add] at this

/-- Witness for C8 (amended): spawning `sceneWitness` into a fresh world
creates entities `0` and `1`, attaches exactly the present fields, and keys
the named bundle by `"p"` and the unnamed one by `"entity_1"`. -/
theorem spawn_scene_contract_witness :
    (SceneLoader.spawn_scene sceneWitness World.new).2.next_entity_id = 2 ∧
    lookupT 0 (SceneLoader.spawn_scene sceneWitness World.new).2.positions =
      some ⟨100, 100⟩ ∧
    (lookupT 0 (SceneLoader.spawn_scene sceneWitness World.new).2.entity_to_body).isSome
      = true ∧
    lookupT 1 (SceneLoader.spawn_scene sceneWitness World.new).2.positions =
      some ⟨3, 4⟩ ∧
    (lookupT 1 (SceneLoader.spawn_scene sceneWitness World.new).2.entity_to_body).isSome
      = false ∧
    lookupT "p" (SceneLoader.spawn_scene sceneWitness World.new).1 = some 0 ∧
    lookupT "entity_1" (SceneLoader.spawn_scene sceneWitness World.new).1 = some 1 := by
  have h := spawn_scene_contract sceneWitness World.new (by decide)
  exact ⟨h.1, (h.2.1 0 (by decide)).1, (h.2.1 0 (by decide)).2.2.2,
    (h.2.1 1 (by decide)).1, (h.2.1 1 (by decide)).2.2.2,
    h.2.2 (by decide) 0 (by decide), h.2.2 (by decide) 1 (by decide)⟩

theorem runOpsFrom_replicate_create (k : Nat) (w : World)
    (hw : w.next_entity_id < u32size) :
    runOpsFrom w (List.replicate k Op.createE) =
      { w with next_entity_id := (w.next_entity_id + k) % u32size } := by
  induction k generalizing w with
  | zero =>
    have h0 : (w.next_entity_id + 0) % u32size = w.next_entity_id := by
      rw [Nat.add_zero]
      exact Nat.mod_eq_of_lt hw
    rw [h0]
    rfl
  | succ n ih =>
    have hstep : runOpsFrom w (List.replicate (n + 1) Op.createE) =
        runOpsFrom (applyOp w Op.createE) (List.replicate n Op.createE) := by
      rw [List.replicate_succ]
      rfl
    rw [hstep, ih (applyOp w Op.createE) (Nat.mod_lt _ (by simp [u32size]))]
    have hmod : ((w.next_entity_id + 1) % u32size + n) % u32size =
        (w.next_entity_id + (n + 1)) % u32size := by
      rw [Nat.mod_add_mod]
      congr 1
      omega
    show ({ w with next_entity_id :=
      ((w.next_entity_id + 1) % u32size + n) % u32size } : World) = _
    rw [hmod]

theorem worldNearWrap_eq :
    worldNearWrap = { World.new with next_entity_id := u32size - 1 } := by
  have h := runOpsFrom_replicate_create (u32size - 1) World.new
    (by simp [World.new, u32size])
  rw [worldNearWrap, runOps, h]
  congr 1

/-- Counterexample to C8 as stated (for *every* scene and world): in the
reachable world produced by `2^32 - 1` calls to `create_entity`, spawning a
two-bundle scene wraps the `u32` allocator — the second bundle is keyed
`"entity_1"` but receives identifier `0`, which the very first
`create_entity` call had already returned (second conjunct), so the entity
is not fresh; the allocator ends at `1` instead of advancing past `2^32`. -/
theorem spawn_scene_contract_cex :
    lookupT "entity_1" (SceneLoader.spawn_scene sceneTwo worldNearWrap).1 = some 0 ∧
    (traceIds World.new (List.replicate (u32size - 1) Op.createE))[0]? = some 0 ∧
    (SceneLoader.spawn_scene sceneTwo worldNearWrap).2.next_entity_id = 1 := by
  refine ⟨?_, ?_, ?_⟩
  · rw [worldNearWrap_eq]
    decide
  · rw [traceIds_eq _ _ (by simp [World.new, u32size]), countCreates_replicate]
    rw [List.getElem?_map, List.getElem?_range (by simp [u32size])]
    show some ((World.new.next_entity_id + 0) % u32size) = some 0
    simp [World.new, u32size]
  · rw [worldNearWrap_eq]
    decide

end RocketEngine
